import Mathlib

/-!
Verification of the StelloPay core payment-agreement engine and two sibling
contracts (payment splitter, multisig) against their natural-language
specification.

The StelloPay core contract source (`stello_pay_contract/src`) is not part of
the source tree; only its test suites are.  Its data model and operations are
therefore modelled from the specification (sections 3, 4 and 5 of spec.md),
faithful to the spec's wording; each such definition carries a
`Modelled from the spec:` doc comment.  The payment-splitter and multisig
definitions are shallow embeddings of the actual Rust source files
`payment_splitter/src/lib.rs` and `multisig/src/lib.rs`.
-/

namespace StelloPay

/-- Error taxonomy of the payroll contract (spec section 7; the variant names
appear in the test suites as `PayrollError`). -/
inductive PayrollError where
  | InvalidData
  | NotAuthorized
  | NotArbiter
  | DisputeAlreadyRaised
  | NoDispute
  | NotInGracePeriod
  | InsufficientFunds
  | NoPeriodsToClaim
  | NotApproved
  | AlreadyClaimed
  deriving DecidableEq, Repr

/-- Agreement lifecycle status (spec section 3). -/
inductive AgreementStatus where
  | Created
  | Active
  | Paused
  | Cancelled
  | Completed
  deriving DecidableEq, Repr

/-- Modelled from the spec: a milestone record (spec section 3) — amount,
approved flag, claimed flag.  The sequential 1-based milestone id is the
position of the record in its agreement's milestone list. -/
structure Milestone where
  amount : Int
  approved : Bool
  claimed : Bool
  deriving DecidableEq, Repr

/-- The milestones of one agreement, in order of their 1-based ids. -/
abbrev Milestones := List Milestone

/-- `BatchClaimResult` (spec section 3): successful_claims, failed_claims,
total_claimed. -/
structure BatchClaimResult where
  successful_claims : Nat
  failed_claims : Nat
  total_claimed : Int
  deriving DecidableEq, Repr

/-- Modelled from the spec: milestone lookup by 1-based id (spec section 3:
ids are sequential starting at 1 within the agreement).  Id 0 and ids past
the end are out of range. -/
def msGet (ms : Milestones) (id : Nat) : Option Milestone :=
  if id = 0 then none else ms[id - 1]?

/-- Modelled from the spec: set the claimed flag of milestone `id` to true
(spec section 4.4 "mark claimed=true"); out-of-range ids leave the list
unchanged. -/
def markClaimed (ms : Milestones) (id : Nat) : Milestones :=
  match msGet ms id with
  | some m => ms.set (id - 1) { m with claimed := true }
  | none => ms

/-- A milestone id is claimable when it is in range, approved and not yet
claimed (spec section 4.4: the three failure cases are out-of-range,
previously claimed, and not approved). -/
def claimable (ms : Milestones) (id : Nat) : Bool :=
  match msGet ms id with
  | some m => m.approved && !m.claimed
  | none => false

/-- Modelled from the spec: one step of `batch_claim_milestones`
(spec section 4.4).  An out-of-range id, an already-claimed id (persisted or
claimed earlier in the same call) or an unapproved id counts one failure and
leaves the milestones unchanged; otherwise the milestone's amount is
transferred, the milestone is marked claimed, successful_claims is
incremented and the amount is added to total_claimed. -/
def batchStep (r : BatchClaimResult) (ms : Milestones) (id : Nat) :
    BatchClaimResult × Milestones :=
  match msGet ms id with
  | none => ({ r with failed_claims := r.failed_claims + 1 }, ms)
  | some m =>
    if m.claimed then ({ r with failed_claims := r.failed_claims + 1 }, ms)
    else if m.approved then
      ({ successful_claims := r.successful_claims + 1,
         failed_claims := r.failed_claims,
         total_claimed := r.total_claimed + m.amount }, markClaimed ms id)
    else ({ r with failed_claims := r.failed_claims + 1 }, ms)

/-- Modelled from the spec: the loop of `batch_claim_milestones` processes the
ids in the given order, threading the accumulated result and milestone state
(spec section 4.4: failures never abort the batch or roll back prior
successes). -/
def batchRun (r : BatchClaimResult) (ms : Milestones) :
    List Nat → BatchClaimResult × Milestones
  | [] => (r, ms)
  | id :: rest =>
    let p := batchStep r ms id
    batchRun p.1 p.2 rest

/-- Modelled from the spec: `batch_claim_milestones(agreement_id, ids)` on the
milestone list of one agreement (spec section 4.4). -/
def batch_claim_milestones (ms : Milestones) (ids : List Nat) :
    BatchClaimResult × Milestones :=
  batchRun ⟨0, 0, 0⟩ ms ids

/-- Modelled from the spec: a Milestone-mode agreement — its lifecycle status
and its milestone list (spec section 3). -/
structure MilestoneAgreement where
  status : AgreementStatus
  milestones : Milestones
  deriving DecidableEq, Repr

/-- Modelled from the spec: `batch_claim_milestones` at the agreement level —
runs the batch loop and then, if every milestone of the agreement is claimed,
sets status to Completed (spec section 4.4, last sentence). -/
def batchClaimMilestonesAg (a : MilestoneAgreement) (ids : List Nat) :
    BatchClaimResult × MilestoneAgreement :=
  let p := batch_claim_milestones a.milestones ids
  (p.1,
   { status := if p.2.all (fun m => m.claimed) then AgreementStatus.Completed else a.status,
     milestones := p.2 })

/-- Modelled from the spec: `claim_milestone(agreement_id, id)`
(spec section 4.2 / 4.4): requires status not Paused and not Cancelled;
requires the milestone to exist, be approved and not yet claimed; transfers
the amount and sets claimed=true; if every milestone is now claimed the
status becomes Completed. -/
def claim_milestone (a : MilestoneAgreement) (id : Nat) :
    Except PayrollError (Int × MilestoneAgreement) :=
  if a.status = AgreementStatus.Paused ∨ a.status = AgreementStatus.Cancelled then
    .error .InvalidData
  else
    match msGet a.milestones id with
    | none => .error .InvalidData
    | some m =>
      if ¬ m.approved then .error .NotApproved
      else if m.claimed then .error .AlreadyClaimed
      else
        let ms' := markClaimed a.milestones id
        .ok (m.amount,
          { status := if ms'.all (fun x => x.claimed) then AgreementStatus.Completed
                      else a.status,
            milestones := ms' })

/-- The milestone-state component of one batch step: a claimable id is marked
claimed, every failing id leaves the state unchanged.  It does not depend on
the accumulated result counters (the lemma stepMs_spec below proves it equal
to the state component of batchStep). -/
def stepMs (ms : Milestones) (id : Nat) : Milestones :=
  if claimable ms id then markClaimed ms id else ms

/-- Number of occurrences of `target` in `ids` at which the batch loop,
started from milestone state `ms`, performs a successful claim. -/
def succCount (ms : Milestones) (ids : List Nat) (target : Nat) : Nat :=
  match ids with
  | [] => 0
  | id :: rest =>
    (if id = target ∧ claimable ms id then 1 else 0) + succCount (stepMs ms id) rest target

/-- Modelled from the spec: an Escrow-mode agreement (spec section 3, "Escrow
terms" merged with the owning Agreement record): status, activation_time,
cancelled_at (set once by cancel_agreement), grace_period_seconds,
amount_per_period, period_seconds, num_periods, claimed_periods, and the
separately tracked escrow_balance.  Times are u64 seconds, amounts i128. -/
structure EscrowAgreement where
  status : AgreementStatus
  activation_time : Nat
  cancelled_at : Option Nat
  grace_period_seconds : Nat
  amount_per_period : Int
  period_seconds : Nat
  num_periods : Nat
  claimed_periods : Nat
  escrow_balance : Int
  deriving DecidableEq, Repr

/-- Modelled from the spec: `cancel_agreement` (spec section 4.1): requires
status in {Active, Paused}; sets status=Cancelled and cancelled_at=now. -/
def cancel_agreement (now : Nat) (a : EscrowAgreement) :
    Except PayrollError EscrowAgreement :=
  if a.status = AgreementStatus.Active ∨ a.status = AgreementStatus.Paused then
    .ok { a with status := AgreementStatus.Cancelled, cancelled_at := some now }
  else .error .InvalidData

/-- Modelled from the spec: `get_grace_period_end` pure read view
(spec section 4.3): cancelled_at + grace_period_seconds. -/
def get_grace_period_end (a : EscrowAgreement) : Option Nat :=
  a.cancelled_at.map (fun c => c + a.grace_period_seconds)

/-- Modelled from the spec: `is_grace_period_active` pure read view
(spec section 4.3). -/
def is_grace_period_active (now : Nat) (a : EscrowAgreement) : Bool :=
  match a.cancelled_at with
  | some c => now ≤ c + a.grace_period_seconds
  | none => false

/-- Modelled from the spec: the earned-but-unclaimed period count at effective
time `t` (spec section 4.3): earned = min(num_periods, floor((t −
activation_time) / period_seconds)) − claimed_periods, in saturating Nat
arithmetic. -/
def earnedBy (a : EscrowAgreement) (t : Nat) : Nat :=
  min a.num_periods ((t - a.activation_time) / a.period_seconds) - a.claimed_periods

/-- Modelled from the spec: the accrual-and-payout core of `claim_time_based`
(spec section 4.3): fails NoPeriodsToClaim if no period is earned; amount =
amount_per_period × earned; fails InsufficientFunds if the escrow balance is
below amount; otherwise transfers the amount and commits claimed_periods +=
earned with the transfer. -/
def claimCore (effectiveNow : Nat) (a : EscrowAgreement) :
    Except PayrollError (Int × EscrowAgreement) :=
  if earnedBy a effectiveNow = 0 then .error .NoPeriodsToClaim
  else if a.escrow_balance < a.amount_per_period * (earnedBy a effectiveNow : Int) then
    .error .InsufficientFunds
  else
    .ok (a.amount_per_period * (earnedBy a effectiveNow : Int),
      { a with claimed_periods := a.claimed_periods + earnedBy a effectiveNow,
               escrow_balance :=
                 a.escrow_balance - a.amount_per_period * (earnedBy a effectiveNow : Int) })

/-- Modelled from the spec: `claim_time_based(agreement_id)` (spec section
4.3): when status=Cancelled, fails NotInGracePeriod if now exceeds
cancelled_at + grace_period_seconds, and otherwise accrues with effective_now
= min(now, cancelled_at) — no new periods accrue after cancellation.  When
status=Active it accrues with effective_now = now.  Any other status (Created,
Paused, Completed) rejects the claim. -/
def claim_time_based (now : Nat) (a : EscrowAgreement) :
    Except PayrollError (Int × EscrowAgreement) :=
  match a.status, a.cancelled_at with
  | AgreementStatus.Cancelled, some c =>
    if now > c + a.grace_period_seconds then .error .NotInGracePeriod
    else claimCore (min now c) a
  | AgreementStatus.Active, _ => claimCore now a
  | _, _ => .error .InvalidData

/-- Addresses are modelled as plain naturals. -/
abbrev Address := Nat

/-- Modelled from the spec: an employee entry of a Payroll agreement
(spec section 3): address, salary, claimed_periods.  The 0-based immutable
index is the position in the agreement's employee list. -/
structure PayrollEmployee where
  address : Address
  salary : Int
  claimed_periods : Nat
  deriving DecidableEq, Repr

/-- Modelled from the spec: a Payroll-mode agreement (spec section 3). -/
structure PayrollAgreement where
  status : AgreementStatus
  activation_time : Nat
  period_duration : Nat
  escrow_balance : Int
  employees : List PayrollEmployee
  deriving DecidableEq, Repr

/-- Modelled from the spec: `claim_payroll(employee, agreement_id,
employee_index)` (spec section 4.2): fails InvalidData unless status=Active;
fails NotAuthorized unless the caller matches the stored employee address;
elapsed = floor((now − activation_time)/period_duration) − claimed_periods,
fails NoPeriodsToClaim if elapsed = 0; amount = salary × elapsed, fails
InsufficientFunds if the escrow balance is below amount; commits
claimed_periods += elapsed with the transfer. -/
def claim_payroll (now : Nat) (caller : Address) (a : PayrollAgreement) (idx : Nat) :
    Except PayrollError (Int × PayrollAgreement) :=
  if a.status ≠ AgreementStatus.Active then .error .InvalidData
  else
    match a.employees[idx]? with
    | none => .error .InvalidData
    | some emp =>
      if caller ≠ emp.address then .error .NotAuthorized
      else if (now - a.activation_time) / a.period_duration - emp.claimed_periods = 0 then
        .error .NoPeriodsToClaim
      else if a.escrow_balance < emp.salary
          * (((now - a.activation_time) / a.period_duration - emp.claimed_periods : Nat) : Int)
        then .error .InsufficientFunds
      else
        .ok (emp.salary
              * (((now - a.activation_time) / a.period_duration
                   - emp.claimed_periods : Nat) : Int),
          { a with
            employees := a.employees.set idx
              { emp with
                claimed_periods := emp.claimed_periods
                  + ((now - a.activation_time) / a.period_duration - emp.claimed_periods) },
            escrow_balance := a.escrow_balance - emp.salary
              * (((now - a.activation_time) / a.period_duration
                   - emp.claimed_periods : Nat) : Int) })

/-- Modelled from the spec: `batch_claim_payroll(caller, agreement_id,
indices)` (spec section 4.2): checks status=Active once for the whole call —
if not Active the entire call fails InvalidData and no index is processed.
Otherwise each index is attempted via the single-claim logic in the given
order and per-index failures do not abort the batch. -/
def batch_claim_payroll (now : Nat) (caller : Address) (a : PayrollAgreement)
    (indices : List Nat) : Except PayrollError PayrollAgreement :=
  if a.status ≠ AgreementStatus.Active then .error .InvalidData
  else
    .ok (indices.foldl
      (fun st idx =>
        match claim_payroll now caller st idx with
        | .ok p => p.2
        | .error _ => st) a)

/-- Result-or-unchanged view of one `claim_payroll` call: the persisted
agreement state after the call (errors persist no change). -/
def payrollClaimStep (c : Nat × Address × Nat) (a : PayrollAgreement) : PayrollAgreement :=
  match claim_payroll c.1 c.2.1 a c.2.2 with
  | .ok p => p.2
  | .error _ => a

/-- The persisted payroll state after a sequence of `claim_payroll` calls,
each given as (now, caller, employee index). -/
def runPayrollClaims (a : PayrollAgreement) (calls : List (Nat × Address × Nat)) :
    PayrollAgreement :=
  calls.foldl (fun st c => payrollClaimStep c st) a

/-- The claimed_periods counter of the employee at `idx` (0 when out of
range). -/
def employeeClaimed (a : PayrollAgreement) (idx : Nat) : Nat :=
  match a.employees[idx]? with
  | some e => e.claimed_periods
  | none => 0

/-- Result-or-unchanged view of one `claim_time_based` call. -/
def escrowClaimStep (now : Nat) (a : EscrowAgreement) : EscrowAgreement :=
  match claim_time_based now a with
  | .ok p => p.2
  | .error _ => a

/-- The persisted escrow state after a sequence of `claim_time_based` calls at
the given times. -/
def runEscrowClaims (a : EscrowAgreement) (times : List Nat) : EscrowAgreement :=
  times.foldl (fun st t => escrowClaimStep t st) a

/-- Dispute status (spec section 3). -/
inductive DisputeStatus where
  | NoDispute
  | Raised
  | Resolved
  deriving DecidableEq, Repr

/-- Modelled from the spec: the per-agreement dispute singleton
(spec section 3): status and raised_at. -/
structure DisputeState where
  status : DisputeStatus
  raised_at : Nat
  deriving DecidableEq, Repr

/-- Modelled from the spec: `raise_dispute(caller, agreement_id)`
(spec section 4.5): fails DisputeAlreadyRaised unless the current status is
NoDispute; sets Raised and records raised_at.  (Party-membership
authentication is performed by the caller-auth oracle and is not part of the
claims settled here.) -/
def raise_dispute (now : Nat) (d : DisputeState) : Except PayrollError DisputeState :=
  if d.status = DisputeStatus.NoDispute then
    .ok { status := DisputeStatus.Raised, raised_at := now }
  else .error .DisputeAlreadyRaised

/-- Modelled from the spec: `resolve_dispute(arbiter, agreement_id,
amount_to_employer, amount_to_contributor)` (spec section 4.5): fails
NotArbiter unless the caller equals the configured arbiter; fails NoDispute
unless status=Raised; fails InsufficientFunds if the sum of the two amounts
exceeds the agreement's escrow balance; otherwise transfers both amounts and
sets status=Resolved (terminal). -/
def resolve_dispute (caller arbiter : Address) (amtEmployer amtContributor : Int)
    (escrowBalance : Int) (d : DisputeState) : Except PayrollError DisputeState :=
  if caller ≠ arbiter then .error .NotArbiter
  else if d.status ≠ DisputeStatus.Raised then .error .NoDispute
  else if escrowBalance < amtEmployer + amtContributor then .error .InsufficientFunds
  else .ok { d with status := DisputeStatus.Resolved }

/-- Modelled from the spec: the two agreement-id counters (spec section 3):
Payroll and Escrow agreements share one counter, Milestone agreements use an
independent one. -/
structure AgreementCounters where
  next_agreement_id : Nat
  milestone_counter : Nat
  deriving DecidableEq, Repr

/-- The three kinds of agreement creation. -/
inductive CreateKind where
  | payroll
  | escrow
  | milestone
  deriving DecidableEq, Repr

/-- True for the kinds drawing from the shared Payroll/Escrow counter. -/
def CreateKind.sharedCounter : CreateKind → Bool
  | .payroll => true
  | .escrow => true
  | .milestone => false

/-- Modelled from the spec: id allocation of
create_payroll_agreement / create_escrow_agreement / create_milestone_agreement
(spec sections 3 and 4.1): each call allocates the next id from its counter
family and increments that counter. -/
def createAgreement (s : AgreementCounters) : CreateKind → Nat × AgreementCounters
  | .payroll =>
    (s.next_agreement_id + 1, { s with next_agreement_id := s.next_agreement_id + 1 })
  | .escrow =>
    (s.next_agreement_id + 1, { s with next_agreement_id := s.next_agreement_id + 1 })
  | .milestone =>
    (s.milestone_counter + 1, { s with milestone_counter := s.milestone_counter + 1 })

/-- Runs a sequence of creation calls, returning the list of (kind, id) pairs
in call order together with the final counter state. -/
def runCreates (s : AgreementCounters) :
    List CreateKind → List (CreateKind × Nat) × AgreementCounters
  | [] => ([], s)
  | k :: ks =>
    let p := createAgreement s k
    let q := runCreates p.2 ks
    ((k, p.1) :: q.1, q.2)

/-- The ids returned for one counter family, in call order: `shared = true`
selects the Payroll/Escrow family, `shared = false` the Milestone family. -/
def familyIds (shared : Bool) (out : List (CreateKind × Nat)) : List Nat :=
  (out.filter (fun p => p.1.sharedCounter == shared)).map Prod.snd

/-- Modelled from the spec: the persistent keyed store, keyed by agreement id
(spec section 5: every agreement's fields live under keys parameterized by
its id).  Each id owns at most one escrow record, at most one milestone
agreement record and one dispute singleton. -/
structure GlobalState where
  escrows : Nat → Option EscrowAgreement
  milestoneAgs : Nat → Option MilestoneAgreement
  disputes : Nat → DisputeState

/-- The observable state of one agreement id: its escrow record (counters and
balances), its milestone record (flags and status) and its dispute status. -/
def observeAgreement (s : GlobalState) (id : Nat) :
    Option EscrowAgreement × Option MilestoneAgreement × DisputeState :=
  (s.escrows id, s.milestoneAgs id, s.disputes id)

/-- Modelled from the spec: `approve_milestone(agreement_id, id)`
(spec section 4.4): idempotent set approved=true; fails if the id does not
exist. -/
def approve_milestone (a : MilestoneAgreement) (id : Nat) :
    Except PayrollError MilestoneAgreement :=
  match msGet a.milestones id with
  | none => .error .InvalidData
  | some m =>
    .ok { a with milestones := a.milestones.set (id - 1) { m with approved := true } }

/-- Store-level `approve_milestone`: reads the milestone agreement under the
given id, applies the operation, and writes back under the same id. -/
def gApproveMilestone (s : GlobalState) (aid mid : Nat) : GlobalState :=
  match s.milestoneAgs aid with
  | none => s
  | some a =>
    match approve_milestone a mid with
    | .ok a' => { s with milestoneAgs := Function.update s.milestoneAgs aid (some a') }
    | .error _ => s

/-- Store-level `claim_milestone`. -/
def gClaimMilestone (s : GlobalState) (aid mid : Nat) : GlobalState :=
  match s.milestoneAgs aid with
  | none => s
  | some a =>
    match claim_milestone a mid with
    | .ok p => { s with milestoneAgs := Function.update s.milestoneAgs aid (some p.2) }
    | .error _ => s

/-- Store-level `batch_claim_milestones`. -/
def gBatchClaimMilestones (s : GlobalState) (aid : Nat) (ids : List Nat) : GlobalState :=
  match s.milestoneAgs aid with
  | none => s
  | some a =>
    let p := batchClaimMilestonesAg a ids
    { s with milestoneAgs := Function.update s.milestoneAgs aid (some p.2) }

/-- Store-level `claim_time_based`. -/
def gClaimTimeBased (s : GlobalState) (now aid : Nat) : GlobalState :=
  match s.escrows aid with
  | none => s
  | some a =>
    match claim_time_based now a with
    | .ok p => { s with escrows := Function.update s.escrows aid (some p.2) }
    | .error _ => s

/-- Store-level `raise_dispute`. -/
def gRaiseDispute (s : GlobalState) (now aid : Nat) : GlobalState :=
  match raise_dispute now (s.disputes aid) with
  | .ok d' => { s with disputes := Function.update s.disputes aid d' }
  | .error _ => s

/-- Store-level `resolve_dispute`: on success the two amounts leave the
agreement's escrow balance and the dispute becomes Resolved. -/
def gResolveDispute (s : GlobalState) (caller arbiter : Address) (aid : Nat)
    (amtEmployer amtContributor : Int) : GlobalState :=
  match s.escrows aid with
  | none => s
  | some e =>
    match resolve_dispute caller arbiter amtEmployer amtContributor
        e.escrow_balance (s.disputes aid) with
    | .ok d' =>
      { s with
        disputes := Function.update s.disputes aid d',
        escrows := Function.update s.escrows aid
          (some { e with escrow_balance := e.escrow_balance - (amtEmployer + amtContributor) }) }
    | .error _ => s

end StelloPay

namespace Splitter

/-- Kind of share (payment_splitter/src/lib.rs, `ShareKind`): percentage in
basis points (u32, 10000 = 100%) or fixed amount (i128). -/
inductive ShareKind where
  | Percent (bps : Nat)
  | Fixed (amount : Int)
  deriving DecidableEq, Repr

/-- Single recipient share (payment_splitter/src/lib.rs, `RecipientShare`). -/
structure RecipientShare where
  recipient : Nat
  kind : ShareKind
  deriving DecidableEq, Repr

/-- Upper bound of u32 arithmetic: `total_bps.checked_add` in `create_split`
traps when the running sum would reach 2^32. -/
def U32_LIMIT : Nat := 4294967296

/-- One step of the `create_split` percent-sum accumulation
(payment_splitter/src/lib.rs lines 78-91): Percent shares are added with
`checked_add` (none models the trapped overflow), Fixed shares are skipped. -/
def addBps (acc : Option Nat) (r : RecipientShare) : Option Nat :=
  match acc, r.kind with
  | some t, .Percent b => if t + b < U32_LIMIT then some (t + b) else none
  | some t, .Fixed _ => some t
  | none, _ => none

/-- Whether any share of the list is a Percent share
(`has_percent` in `create_split`). -/
def hasPercent (rs : List RecipientShare) : Bool :=
  rs.any fun r =>
    match r.kind with
    | .Percent _ => true
    | .Fixed _ => false

/-- The validation and storage step of `create_split`
(payment_splitter/src/lib.rs lines 74-114): requires a nonempty recipient
list; accumulates percent basis points with checked u32 addition; when any
Percent share is present the total must equal exactly 10000; on success the
recipient list is stored unchanged.  `none` models a trapped assertion. -/
def create_split (recipients : List RecipientShare) : Option (List RecipientShare) :=
  if recipients.isEmpty then none
  else
    match recipients.foldl addBps (some 0) with
    | none => none
    | some total =>
      if hasPercent recipients then
        if total = 10000 then some recipients else none
      else some recipients

/-- The per-share amount computed by `compute_split`
(payment_splitter/src/lib.rs lines 162-167): a Percent share of `bps` basis
points yields `(i128::from(bps) * total_amount) / 10000` with Rust's
truncating i128 division; a Fixed share yields its fixed amount. -/
def shareAmount (total_amount : Int) : ShareKind → Int
  | .Percent bps => Int.tdiv ((bps : Int) * total_amount) 10000
  | .Fixed a => a

/-- `compute_split(split_id, total_amount)`
(payment_splitter/src/lib.rs lines 149-171) on the stored recipient list:
maps every recipient to its computed amount, in order. -/
def compute_split (recipients : List RecipientShare) (total_amount : Int) :
    List (Nat × Int) :=
  recipients.map fun r => (r.recipient, shareAmount total_amount r.kind)

/-- The basis points of a share, 0 for Fixed shares. -/
def percentBps (r : RecipientShare) : Nat :=
  match r.kind with
  | .Percent b => b
  | .Fixed _ => 0

/-- Whether every share of the list is a Percent share. -/
def allPercent (rs : List RecipientShare) : Bool :=
  rs.all fun r =>
    match r.kind with
    | .Percent _ => true
    | .Fixed _ => false

end Splitter

namespace Multisig

/-- Operation status (multisig/src/lib.rs, `OperationStatus`). -/
inductive OperationStatus where
  | Pending
  | Executed
  | Cancelled
  deriving DecidableEq, Repr

/-- A multisig operation record (multisig/src/lib.rs, `Operation`), keeping
the fields the approval workflow reads: id, creator, status.  The operation
kind only selects the side effect of execution (a token transfer for
LargePayment, none otherwise) and never touches the approvals, so it is not
modelled. -/
structure Operation where
  id : Nat
  creator : Nat
  status : OperationStatus
  deriving DecidableEq, Repr

/-- The multisig contract's persistent state (multisig/src/lib.rs,
`StorageKey`): the configured signer list, the execution threshold, the
operation counter, and the per-operation records and approval lists. -/
structure MultisigState where
  signers : List Nat
  threshold : Nat
  counter : Nat
  ops : Nat → Option Operation
  approvals : Nat → List Nat

/-- `is_signer` (multisig/src/lib.rs lines 114-122). -/
def is_signer (s : MultisigState) (a : Nat) : Bool :=
  s.signers.contains a

/-- `has_approved` (multisig/src/lib.rs lines 165-173): whether the signer is
already in the operation's approval list. -/
def has_approved (s : MultisigState) (oid : Nat) (signer : Nat) : Bool :=
  (s.approvals oid).contains signer

/-- `approval_count` (multisig/src/lib.rs lines 175-178). -/
def approval_count (s : MultisigState) (oid : Nat) : Nat :=
  (s.approvals oid).length

/-- `perform_execute` (multisig/src/lib.rs lines 201-229) restricted to its
state transition: a Pending operation becomes Executed (the LargePayment
token transfer is an external collaborator call and does not touch this
contract's records); a non-Pending operation is left unchanged. -/
def perform_execute (s : MultisigState) (oid : Nat) : MultisigState :=
  match s.ops oid with
  | some op =>
    if op.status = OperationStatus.Pending then
      { s with ops :=
          Function.update s.ops oid (some { op with status := OperationStatus.Executed }) }
    else s
  | none => s

/-- `execute_if_threshold_met` (multisig/src/lib.rs lines 191-199). -/
def execute_if_threshold_met (s : MultisigState) (oid : Nat) : MultisigState :=
  if s.threshold ≤ approval_count s oid then perform_execute s oid else s

/-- `approve_operation` (multisig/src/lib.rs lines 337-370): asserts the
caller is a configured signer and the operation exists and is Pending (`none`
models a trapped assertion, which commits no state); returns the state
unchanged when the signer has already approved; otherwise appends the signer
to the approval list, writes it back, and executes if the threshold is met. -/
def approve_operation (s : MultisigState) (signer : Nat) (oid : Nat) :
    Option MultisigState :=
  if ¬ is_signer s signer then none
  else
    match s.ops oid with
    | none => none
    | some op =>
      if op.status ≠ OperationStatus.Pending then none
      else if has_approved s oid signer then some s
      else
        let s' := { s with
          approvals := Function.update s.approvals oid (s.approvals oid ++ [signer]) }
        some (execute_if_threshold_met s' oid)

/-- `propose_operation` (multisig/src/lib.rs lines 298-330): asserts the
proposer is a signer; allocates the next operation id; stores a Pending
operation auto-approved by the proposer; then executes if the threshold is
already met. -/
def propose_operation (s : MultisigState) (proposer : Nat) :
    Option (Nat × MultisigState) :=
  if ¬ is_signer s proposer then none
  else
    let id := s.counter + 1
    let s1 := { s with
      counter := id,
      ops := Function.update s.ops id (some ⟨id, proposer, OperationStatus.Pending⟩),
      approvals := Function.update s.approvals id [proposer] }
    some (id, execute_if_threshold_met s1 id)

/-- One repeated-approval attempt: the state after `approve_operation`, or the
unchanged state when the call traps. -/
def approveStep (signer oid : Nat) (s : MultisigState) : MultisigState :=
  (approve_operation s signer oid).getD s

end Multisig

namespace StelloPay

theorem msGet_some_facts {ms : Milestones} {id : Nat} {m : Milestone}
    (hm : msGet ms id = some m) :
    id - 1 < ms.length ∧ id ≠ 0 ∧ ms[id - 1]? = some m := by
  unfold msGet at hm
  by_cases h0 : id = 0
  · rw [if_pos h0] at hm; exact absurd hm (by simp)
  · rw [if_neg h0] at hm
    refine ⟨?_, h0, hm⟩
    by_contra hh
    rw [List.getElem?_eq_none (Nat.le_of_not_lt hh)] at hm
    exact absurd hm (by simp)

theorem claimable_true {ms : Milestones} {id : Nat} (h : claimable ms id = true) :
    ∃ m, msGet ms id = some m ∧ m.approved = true ∧ m.claimed = false := by
  unfold claimable at h
  cases hm : msGet ms id with
  | none => rw [hm] at h; exact absurd h (by simp)
  | some m =>
    rw [hm] at h
    simp only [Bool.and_eq_true, Bool.not_eq_true'] at h
    exact ⟨m, rfl, h.1, h.2⟩

theorem claimable_iff (ms : Milestones) (id : Nat) :
    claimable ms id = true ↔
      id ≠ 0 ∧ (ms[id - 1]?).map Milestone.approved = some true ∧
        (ms[id - 1]?).map Milestone.claimed = some false := by
  unfold claimable msGet
  by_cases h0 : id = 0
  · simp [h0]
  · rw [if_neg h0]
    cases hm : ms[id - 1]? with
    | none => simp [h0]
    | some m => simp [h0, Bool.and_eq_true, Bool.not_eq_true']

theorem length_markClaimed (ms : Milestones) (id : Nat) :
    (markClaimed ms id).length = ms.length := by
  unfold markClaimed
  cases h : msGet ms id <;> simp

theorem getElem?_markClaimed_ne (ms : Milestones) (id i : Nat) (hne : i ≠ id - 1) :
    (markClaimed ms id)[i]? = ms[i]? := by
  unfold markClaimed
  cases h : msGet ms id with
  | none => rfl
  | some m => exact List.getElem?_set_ne (by omega)

theorem getElem?_markClaimed_self {ms : Milestones} {id : Nat} {m : Milestone}
    (hm : msGet ms id = some m) :
    (markClaimed ms id)[id - 1]? = some { m with claimed := true } := by
  unfold markClaimed
  rw [hm]
  exact List.getElem?_set_self (msGet_some_facts hm).1

theorem stepMs_spec (r : BatchClaimResult) (ms : Milestones) (id : Nat) :
    (batchStep r ms id).2 = stepMs ms id := by
  unfold batchStep stepMs claimable
  cases h : msGet ms id with
  | none => simp
  | some m => cases hc : m.claimed <;> cases ha : m.approved <;> simp [hc, ha]

theorem batchStep_counts (r : BatchClaimResult) (ms : Milestones) (id : Nat) :
    (batchStep r ms id).1.successful_claims + (batchStep r ms id).1.failed_claims
      = r.successful_claims + r.failed_claims + 1 := by
  unfold batchStep
  cases h : msGet ms id with
  | none => simp; omega
  | some m =>
    cases hc : m.claimed <;> cases ha : m.approved <;> simp [hc, ha] <;> omega

theorem batchStep_dead (r : BatchClaimResult) (ms : Milestones) (id : Nat)
    (h : claimable ms id = false) :
    batchStep r ms id = ({ r with failed_claims := r.failed_claims + 1 }, ms) := by
  unfold claimable at h
  unfold batchStep
  cases hm : msGet ms id with
  | none => simp
  | some m =>
    rw [hm] at h
    cases hc : m.claimed with
    | true => simp [hc]
    | false =>
      cases ha : m.approved with
      | false => simp [hc, ha]
      | true => simp [hc, ha] at h

theorem batchStep_live (r : BatchClaimResult) (ms : Milestones) (id : Nat) (m : Milestone)
    (hm : msGet ms id = some m) (ha : m.approved = true) (hc : m.claimed = false) :
    batchStep r ms id
      = (⟨r.successful_claims + 1, r.failed_claims, r.total_claimed + m.amount⟩,
         markClaimed ms id) := by
  unfold batchStep
  rw [hm]
  simp [ha, hc]

theorem length_stepMs (ms : Milestones) (id : Nat) :
    (stepMs ms id).length = ms.length := by
  unfold stepMs
  split
  · exact length_markClaimed ms id
  · rfl

theorem stepMs_amount (ms : Milestones) (id i : Nat) :
    ((stepMs ms id)[i]?).map Milestone.amount = (ms[i]?).map Milestone.amount := by
  unfold stepMs
  split
  case isTrue h =>
    obtain ⟨m, hm, _, _⟩ := claimable_true h
    by_cases hi : i = id - 1
    · subst hi
      rw [getElem?_markClaimed_self hm, (msGet_some_facts hm).2.2]
      rfl
    · rw [getElem?_markClaimed_ne ms id i hi]
  case isFalse _ => rfl

theorem stepMs_approved (ms : Milestones) (id i : Nat) :
    ((stepMs ms id)[i]?).map Milestone.approved = (ms[i]?).map Milestone.approved := by
  unfold stepMs
  split
  case isTrue h =>
    obtain ⟨m, hm, _, _⟩ := claimable_true h
    by_cases hi : i = id - 1
    · subst hi
      rw [getElem?_markClaimed_self hm, (msGet_some_facts hm).2.2]
      rfl
    · rw [getElem?_markClaimed_ne ms id i hi]
  case isFalse _ => rfl

theorem stepMs_claimed_mono (ms : Milestones) (id i : Nat)
    (h : (ms[i]?).map Milestone.claimed = some true) :
    ((stepMs ms id)[i]?).map Milestone.claimed = some true := by
  unfold stepMs
  split
  case isTrue hcl =>
    obtain ⟨m, hm, _, _⟩ := claimable_true hcl
    by_cases hi : i = id - 1
    · subst hi
      rw [getElem?_markClaimed_self hm]
      rfl
    · rw [getElem?_markClaimed_ne ms id i hi]; exact h
  case isFalse _ => exact h

theorem claimable_stepMs_false {ms : Milestones} {t : Nat} (id : Nat)
    (h : claimable ms t = false) : claimable (stepMs ms id) t = false := by
  by_contra hc
  rw [Bool.not_eq_false] at hc
  obtain ⟨h0, ha, hcl⟩ := (claimable_iff _ _).mp hc
  rw [stepMs_approved] at ha
  cases hm : ms[t - 1]? with
  | none => rw [hm] at ha; exact absurd ha (by simp)
  | some m =>
    rw [hm] at ha
    have ham : m.approved = true := by simpa using ha
    cases hcm : m.claimed with
    | true =>
      have hmono : ((stepMs ms id)[t - 1]?).map Milestone.claimed = some true :=
        stepMs_claimed_mono ms id (t - 1) (by rw [hm]; simp [hcm])
      rw [hmono] at hcl
      exact absurd hcl (by simp)
    | false =>
      have : claimable ms t = true :=
        (claimable_iff _ _).mpr ⟨h0, by rw [hm]; simp [ham], by rw [hm]; simp [hcm]⟩
      rw [this] at h
      exact absurd h (by simp)

theorem claimable_stepMs_self (ms : Milestones) (id : Nat) :
    claimable (stepMs ms id) id = false := by
  unfold stepMs
  cases hb : claimable ms id with
  | false => simpa using hb
  | true =>
    obtain ⟨m, hm, _, _⟩ := claimable_true hb
    obtain ⟨hlt, h0, hidx⟩ := msGet_some_facts hm
    simp only [if_true]
    unfold claimable msGet
    rw [if_neg h0, getElem?_markClaimed_self hm]
    simp

theorem claimable_foldl_false {ms : Milestones} {t : Nat} (ids : List Nat)
    (h : claimable ms t = false) : claimable (ids.foldl stepMs ms) t = false := by
  induction ids generalizing ms with
  | nil => exact h
  | cons id rest ih =>
    rw [List.foldl_cons]
    exact ih (claimable_stepMs_false id h)

theorem claimable_post {ms : Milestones} {ids : List Nat} {t : Nat} (h : t ∈ ids) :
    claimable (ids.foldl stepMs ms) t = false := by
  induction ids generalizing ms with
  | nil => cases h
  | cons id rest ih =>
    rw [List.foldl_cons]
    rcases List.mem_cons.mp h with h1 | h2
    · subst h1
      exact claimable_foldl_false rest (claimable_stepMs_self ms t)
    · exact ih h2

theorem batchRun_ms (r : BatchClaimResult) (ms : Milestones) (ids : List Nat) :
    (batchRun r ms ids).2 = ids.foldl stepMs ms := by
  induction ids generalizing r ms with
  | nil => rfl
  | cons id rest ih =>
    simp only [batchRun]
    rw [ih, stepMs_spec, List.foldl_cons]

theorem batchRun_counts (r : BatchClaimResult) (ms : Milestones) (ids : List Nat) :
    (batchRun r ms ids).1.successful_claims + (batchRun r ms ids).1.failed_claims
      = r.successful_claims + r.failed_claims + ids.length := by
  induction ids generalizing r ms with
  | nil => simp [batchRun]
  | cons id rest ih =>
    simp only [batchRun]
    rw [ih]
    have := batchStep_counts r ms id
    simp only [List.length_cons]
    omega

theorem batchRun_dead (r : BatchClaimResult) (ms : Milestones) (ids : List Nat)
    (h : ∀ id ∈ ids, claimable ms id = false) :
    batchRun r ms ids = ({ r with failed_claims := r.failed_claims + ids.length }, ms) := by
  induction ids generalizing r with
  | nil => simp [batchRun]
  | cons id rest ih =>
    have hid : claimable ms id = false := h id (List.mem_cons_self id rest)
    simp only [batchRun]
    rw [batchStep_dead r ms id hid,
        ih _ (fun i hi => h i (List.mem_cons_of_mem _ hi))]
    have harith : r.failed_claims + 1 + rest.length = r.failed_claims + (id :: rest).length := by
      simp [List.length_cons]; omega
    rw [harith]

theorem succCount_dead {ms : Milestones} {t : Nat} (ids : List Nat)
    (h : claimable ms t = false) : succCount ms ids t = 0 := by
  induction ids generalizing ms with
  | nil => rfl
  | cons id rest ih =>
    simp only [succCount]
    rw [if_neg, ih (claimable_stepMs_false id h)]
    rintro ⟨rfl, hc⟩
    rw [h] at hc
    exact absurd hc (by simp)

theorem succCount_le_one (ms : Milestones) (ids : List Nat) (t : Nat) :
    succCount ms ids t ≤ 1 := by
  induction ids generalizing ms with
  | nil => simp [succCount]
  | cons id rest ih =>
    simp only [succCount]
    by_cases h : id = t ∧ claimable ms id = true
    · rw [if_pos h]
      obtain ⟨rfl, hc⟩ := h
      rw [succCount_dead rest (claimable_stepMs_self ms id)]
    · rw [if_neg h]
      simpa using ih (stepMs ms id)

/-- Claim C1: a milestone whose claimed flag is true can never be successfully
claimed again by claim_milestone or batch_claim_milestones: claim_milestone on
a claimed milestone always returns an error; replaying the exact id list of
any previous batch_claim_milestones call against the state that call produced
yields successful_claims = 0 and total_claimed = 0 (every id fails) with no
state change; and inside a single batch at most one occurrence of any id can
succeed, so the contributor is paid at most once per milestone. -/
theorem milestone_claimed_never_reclaimable
    (ms : Milestones) (ids : List Nat) (a : MilestoneAgreement)
    (id target : Nat) (m : Milestone)
    (hm : msGet a.milestones id = some m) (hc : m.claimed = true) :
    (∃ e, claim_milestone a id = Except.error e) ∧
    batch_claim_milestones (batch_claim_milestones ms ids).2 ids
      = (⟨0, ids.length, 0⟩, (batch_claim_milestones ms ids).2) ∧
    succCount ms ids target ≤ 1 ∧
    (claimable ms target = false → succCount ms ids target = 0) ∧
    claimable (stepMs ms target) target = false := by
  refine ⟨?_, ?_, succCount_le_one ms ids target,
    fun hdead => succCount_dead ids hdead, claimable_stepMs_self ms target⟩
  · unfold claim_milestone
    by_cases hs : a.status = AgreementStatus.Paused ∨ a.status = AgreementStatus.Cancelled
    · rw [if_pos hs]
      exact ⟨PayrollError.InvalidData, rfl⟩
    · rw [if_neg hs, hm]
      cases ha : m.approved with
      | false => exact ⟨PayrollError.NotApproved, by simp [ha]⟩
      | true => exact ⟨PayrollError.AlreadyClaimed, by simp [ha, hc]⟩
  · unfold batch_claim_milestones
    have hpost : ∀ i ∈ ids, claimable (batchRun ⟨0, 0, 0⟩ ms ids).2 i = false := by
      intro i hi
      rw [batchRun_ms]
      exact claimable_post hi
    rw [batchRun_dead _ _ _ hpost]
    simp

/-- Witness for C1: instantiated at a one-element claimed milestone list and
the batch id list [1, 1]. -/
theorem milestone_claimed_never_reclaimable_witness :
    (∃ e, claim_milestone ⟨AgreementStatus.Active, [⟨500, true, true⟩]⟩ 1
      = Except.error e) ∧
    batch_claim_milestones
        (batch_claim_milestones [⟨1000, true, false⟩] [1, 1]).2 [1, 1]
      = (⟨0, 2, 0⟩, (batch_claim_milestones [⟨1000, true, false⟩] [1, 1]).2) ∧
    succCount [⟨1000, true, false⟩] [1, 1] 1 ≤ 1 ∧
    (claimable [⟨1000, true, false⟩] 1 = false →
      succCount [⟨1000, true, false⟩] [1, 1] 1 = 0) ∧
    claimable (stepMs [⟨1000, true, false⟩] 1) 1 = false :=
  milestone_claimed_never_reclaimable [⟨1000, true, false⟩] [1, 1]
    ⟨AgreementStatus.Active, [⟨500, true, true⟩]⟩ 1 1 ⟨500, true, true⟩
    (by decide) rfl

/-- Claim C2: batch_claim_milestones processes the ids in order with per-item
partial success: every id is counted exactly once (successes plus failures
equal the list length, so no failure aborts the call), a failing id leaves the
milestone state unchanged while incrementing failed_claims, an approved
unclaimed id transfers its amount, marks it claimed and adds the amount to
total_claimed; and on the concrete five-milestone agreement of 1000 each with
ids 1, 3, 5 approved, batch_claim_milestones [1,2,3,6,5] returns
successful_claims = 3, failed_claims = 2, total_claimed = 3000 and leaves
milestones 2 and 4 unclaimed. -/
theorem batch_claim_milestones_partial_success
    (r : BatchClaimResult) (ms : Milestones) (ids : List Nat)
    (id : Nat) (m : Milestone)
    (hm : msGet ms id = some m) (ha : m.approved = true) (hc : m.claimed = false) :
    ((batch_claim_milestones ms ids).1.successful_claims
       + (batch_claim_milestones ms ids).1.failed_claims = ids.length) ∧
    (batchStep r ms id
       = (⟨r.successful_claims + 1, r.failed_claims, r.total_claimed + m.amount⟩,
          markClaimed ms id)) ∧
    (∀ badId, claimable ms badId = false →
       batchStep r ms badId = ({ r with failed_claims := r.failed_claims + 1 }, ms)) ∧
    batchClaimMilestonesAg
        ⟨AgreementStatus.Active,
         [⟨1000, true, false⟩, ⟨1000, false, false⟩, ⟨1000, true, false⟩,
          ⟨1000, false, false⟩, ⟨1000, true, false⟩]⟩ [1, 2, 3, 6, 5]
      = (⟨3, 2, 3000⟩,
         ⟨AgreementStatus.Active,
          [⟨1000, true, true⟩, ⟨1000, false, false⟩, ⟨1000, true, true⟩,
           ⟨1000, false, false⟩, ⟨1000, true, true⟩]⟩) := by
  refine ⟨?_, batchStep_live r ms id m hm ha hc,
          fun badId hbad => batchStep_dead r ms badId hbad, by decide⟩
  have h2 := batchRun_counts ⟨0, 0, 0⟩ ms ids
  simp only [Nat.zero_add] at h2
  unfold batch_claim_milestones
  omega

/-- Witness for C2: instantiated at the five-milestone example agreement with
milestone 1 approved and unclaimed. -/
theorem batch_claim_milestones_partial_success_witness :
    ((batch_claim_milestones
        [⟨1000, true, false⟩, ⟨1000, false, false⟩, ⟨1000, true, false⟩,
         ⟨1000, false, false⟩, ⟨1000, true, false⟩] [1, 2, 3, 6, 5]).1.successful_claims
       + (batch_claim_milestones
        [⟨1000, true, false⟩, ⟨1000, false, false⟩, ⟨1000, true, false⟩,
         ⟨1000, false, false⟩, ⟨1000, true, false⟩] [1, 2, 3, 6, 5]).1.failed_claims
       = 5) ∧
    (batchStep ⟨0, 0, 0⟩
        [⟨1000, true, false⟩, ⟨1000, false, false⟩, ⟨1000, true, false⟩,
         ⟨1000, false, false⟩, ⟨1000, true, false⟩] 1
       = (⟨1, 0, 1000⟩,
          markClaimed
            [⟨1000, true, false⟩, ⟨1000, false, false⟩, ⟨1000, true, false⟩,
             ⟨1000, false, false⟩, ⟨1000, true, false⟩] 1)) ∧
    (∀ badId,
       claimable
         [⟨1000, true, false⟩, ⟨1000, false, false⟩, ⟨1000, true, false⟩,
          ⟨1000, false, false⟩, ⟨1000, true, false⟩] badId = false →
       batchStep ⟨0, 0, 0⟩
          [⟨1000, true, false⟩, ⟨1000, false, false⟩, ⟨1000, true, false⟩,
           ⟨1000, false, false⟩, ⟨1000, true, false⟩] badId
         = (⟨0, 1, 0⟩,
            [⟨1000, true, false⟩, ⟨1000, false, false⟩, ⟨1000, true, false⟩,
             ⟨1000, false, false⟩, ⟨1000, true, false⟩])) ∧
    batchClaimMilestonesAg
        ⟨AgreementStatus.Active,
         [⟨1000, true, false⟩, ⟨1000, false, false⟩, ⟨1000, true, false⟩,
          ⟨1000, false, false⟩, ⟨1000, true, false⟩]⟩ [1, 2, 3, 6, 5]
      = (⟨3, 2, 3000⟩,
         ⟨AgreementStatus.Active,
          [⟨1000, true, true⟩, ⟨1000, false, false⟩, ⟨1000, true, true⟩,
           ⟨1000, false, false⟩, ⟨1000, true, true⟩]⟩) :=
  batch_claim_milestones_partial_success ⟨0, 0, 0⟩
    [⟨1000, true, false⟩, ⟨1000, false, false⟩, ⟨1000, true, false⟩,
     ⟨1000, false, false⟩, ⟨1000, true, false⟩] [1, 2, 3, 6, 5] 1
    ⟨1000, true, false⟩ (by decide) rfl rfl

end StelloPay


namespace StelloPay

theorem claimCore_ok {eff : Nat} {a : EscrowAgreement} {amt : Int} {a' : EscrowAgreement}
    (h : claimCore eff a = Except.ok (amt, a')) :
    earnedBy a eff ≠ 0 ∧
      amt = a.amount_per_period * (earnedBy a eff : Int) ∧
      ¬ a.escrow_balance < amt ∧
      a' = { a with claimed_periods := a.claimed_periods + earnedBy a eff,
                    escrow_balance := a.escrow_balance - amt } := by
  unfold claimCore at h
  by_cases he : earnedBy a eff = 0
  · rw [if_pos he] at h; cases h
  rw [if_neg he] at h
  by_cases hb : a.escrow_balance < a.amount_per_period * (earnedBy a eff : Int)
  · rw [if_pos hb] at h; cases h
  rw [if_neg hb] at h
  simp only [Except.ok.injEq, Prod.mk.injEq] at h
  obtain ⟨hamt, ha'⟩ := h
  subst hamt
  exact ⟨he, rfl, hb, ha'.symm⟩

theorem claim_time_based_ok {t : Nat} {a : EscrowAgreement} {amt : Int} {a' : EscrowAgreement}
    (h : claim_time_based t a = Except.ok (amt, a')) :
    ∃ eff,
      (a.status = AgreementStatus.Active ∧ eff = t ∨
       ∃ c, a.status = AgreementStatus.Cancelled ∧ a.cancelled_at = some c ∧
         t ≤ c + a.grace_period_seconds ∧ eff = min t c) ∧
      earnedBy a eff ≠ 0 ∧
      amt = a.amount_per_period * (earnedBy a eff : Int) ∧
      ¬ a.escrow_balance < amt ∧
      a' = { a with claimed_periods := a.claimed_periods + earnedBy a eff,
                    escrow_balance := a.escrow_balance - amt } := by
  unfold claim_time_based at h
  cases hst : a.status with
  | Active =>
    cases hca : a.cancelled_at with
    | none =>
      rw [hst, hca] at h
      dsimp only at h
      obtain ⟨he, hamt, hb, ha'⟩ := claimCore_ok h
      rw [hst, hca] at ha'
      exact ⟨t, Or.inl ⟨rfl, rfl⟩, he, hamt, hb, ha'⟩
    | some c =>
      rw [hst, hca] at h
      dsimp only at h
      obtain ⟨he, hamt, hb, ha'⟩ := claimCore_ok h
      rw [hst, hca] at ha'
      exact ⟨t, Or.inl ⟨rfl, rfl⟩, he, hamt, hb, ha'⟩
  | Cancelled =>
    cases hca : a.cancelled_at with
    | none => rw [hst, hca] at h; simp at h
    | some c =>
      rw [hst, hca] at h
      dsimp only at h
      by_cases hg : t > c + a.grace_period_seconds
      · rw [if_pos hg] at h; cases h
      rw [if_neg hg] at h
      obtain ⟨he, hamt, hb, ha'⟩ := claimCore_ok h
      rw [hst, hca] at ha'
      exact ⟨min t c, Or.inr ⟨c, rfl, rfl, Nat.le_of_not_lt hg, rfl⟩, he, hamt, hb, ha'⟩
  | Created => cases hca : a.cancelled_at <;> rw [hst, hca] at h <;> simp at h
  | Paused => cases hca : a.cancelled_at <;> rw [hst, hca] at h <;> simp at h
  | Completed => cases hca : a.cancelled_at <;> rw [hst, hca] at h <;> simp at h

end StelloPay

namespace StelloPay

theorem claim_time_based_no_double {t : Nat} {a : EscrowAgreement} {amt : Int}
    {a' : EscrowAgreement} (h : claim_time_based t a = Except.ok (amt, a')) :
    claim_time_based t a' = Except.error PayrollError.NoPeriodsToClaim := by
  obtain ⟨eff, hbranch, hne, hamt, hbal, ha'⟩ := claim_time_based_ok h
  have hsts : a'.status = a.status := by rw [ha']
  have hcas : a'.cancelled_at = a.cancelled_at := by rw [ha']
  have hgrs : a'.grace_period_seconds = a.grace_period_seconds := by rw [ha']
  have hzero : earnedBy a' eff = 0 := by
    rw [ha']
    unfold earnedBy at hne ⊢
    dsimp only
    set q := (eff - a.activation_time) / a.period_seconds with hq
    set m := min a.num_periods q with hm
    omega
  rcases hbranch with ⟨hst, heff⟩ | ⟨c, hst, hca, hgr, heff⟩
  · subst heff
    unfold claim_time_based
    rw [hsts, hst]
    cases hca2 : a'.cancelled_at <;> dsimp only <;>
      · unfold claimCore
        rw [if_pos hzero]
  · subst heff
    unfold claim_time_based
    rw [hsts, hst, hcas, hca]
    dsimp only
    rw [hgrs, if_neg (Nat.not_lt.mpr hgr)]
    unfold claimCore
    rw [if_pos hzero]

theorem runEscrowClaims_mono (a : EscrowAgreement) (times : List Nat) :
    a.claimed_periods ≤ (runEscrowClaims a times).claimed_periods := by
  induction times generalizing a with
  | nil => exact le_refl _
  | cons t rest ih =>
    unfold runEscrowClaims
    rw [List.foldl_cons]
    refine le_trans ?_ (ih _)
    unfold escrowClaimStep
    cases h : claim_time_based t a with
    | error e => exact le_refl _
    | ok p =>
      obtain ⟨eff, _, _, _, _, ha'⟩ := @claim_time_based_ok t a p.1 p.2 (by rw [h])
      dsimp only
      rw [ha']
      exact Nat.le_add_right _ _

theorem claim_payroll_ok {now : Nat} {caller : Address} {a : PayrollAgreement} {idx : Nat}
    {amt : Int} {a' : PayrollAgreement}
    (h : claim_payroll now caller a idx = Except.ok (amt, a')) :
    ∃ emp, a.employees[idx]? = some emp ∧
      a.status = AgreementStatus.Active ∧
      caller = emp.address ∧
      (now - a.activation_time) / a.period_duration - emp.claimed_periods ≠ 0 ∧
      amt = emp.salary
        * (((now - a.activation_time) / a.period_duration - emp.claimed_periods : Nat) : Int) ∧
      a' = { a with
             employees := a.employees.set idx
               { emp with
                 claimed_periods := emp.claimed_periods
                   + ((now - a.activation_time) / a.period_duration - emp.claimed_periods) },
             escrow_balance := a.escrow_balance - amt } := by
  unfold claim_payroll at h
  by_cases hs : a.status ≠ AgreementStatus.Active
  · rw [if_pos hs] at h; cases h
  rw [if_neg hs] at h
  cases hemp : a.employees[idx]? with
  | none => rw [hemp] at h; simp at h
  | some emp =>
    rw [hemp] at h
    dsimp only at h
    by_cases hcall : caller ≠ emp.address
    · rw [if_pos hcall] at h; cases h
    rw [if_neg hcall] at h
    by_cases hel : (now - a.activation_time) / a.period_duration - emp.claimed_periods = 0
    · rw [if_pos hel] at h; cases h
    rw [if_neg hel] at h
    by_cases hbal : a.escrow_balance < emp.salary
        * (((now - a.activation_time) / a.period_duration - emp.claimed_periods : Nat) : Int)
    · rw [if_pos hbal] at h; cases h
    rw [if_neg hbal] at h
    simp only [Except.ok.injEq, Prod.mk.injEq] at h
    obtain ⟨hamt, ha'⟩ := h
    subst hamt
    exact ⟨emp, rfl, Decidable.not_not.mp hs, Decidable.not_not.mp hcall, hel, rfl, ha'.symm⟩

theorem claim_payroll_no_double {now : Nat} {caller : Address} {a : PayrollAgreement}
    {idx : Nat} {amt : Int} {a' : PayrollAgreement}
    (h : claim_payroll now caller a idx = Except.ok (amt, a')) :
    claim_payroll now caller a' idx = Except.error PayrollError.NoPeriodsToClaim := by
  obtain ⟨emp, hemp, hst, hcall, hel, hamt, ha'⟩ := claim_payroll_ok h
  have hlt : idx < a.employees.length := by
    by_contra hh
    rw [List.getElem?_eq_none (Nat.le_of_not_lt hh)] at hemp
    exact absurd hemp (by simp)
  have hsts : a'.status = a.status := by rw [ha']
  have hemps : a'.employees[idx]?
      = some { emp with
               claimed_periods := emp.claimed_periods
                 + ((now - a.activation_time) / a.period_duration - emp.claimed_periods) } := by
    rw [ha']
    dsimp only
    exact List.getElem?_set_self hlt
  have hacts : a'.activation_time = a.activation_time := by rw [ha']
  have hpds : a'.period_duration = a.period_duration := by rw [ha']
  unfold claim_payroll
  rw [hsts, if_neg (by simp [hst])]
  rw [hemps]
  dsimp only
  rw [if_neg (by simpa using hcall)]
  rw [hacts, hpds]
  rw [if_pos (by
    set q := (now - a.activation_time) / a.period_duration with hq
    omega)]

theorem employeeClaimed_step_mono (c : Nat × Address × Nat) (a : PayrollAgreement) (i : Nat) :
    employeeClaimed a i ≤ employeeClaimed (payrollClaimStep c a) i := by
  unfold payrollClaimStep
  cases h : claim_payroll c.1 c.2.1 a c.2.2 with
  | error e => exact le_refl _
  | ok p =>
    obtain ⟨emp, hemp, _, _, _, _, ha'⟩ :=
      @claim_payroll_ok c.1 c.2.1 a c.2.2 p.1 p.2 (by rw [h])
    have hlt : c.2.2 < a.employees.length := by
      by_contra hh
      rw [List.getElem?_eq_none (Nat.le_of_not_lt hh)] at hemp
      exact absurd hemp (by simp)
    dsimp only
    unfold employeeClaimed
    rw [ha']
    dsimp only
    by_cases hi : i = c.2.2
    · subst hi
      rw [List.getElem?_set_self hlt, hemp]
      exact Nat.le_add_right _ _
    · rw [List.getElem?_set_ne (fun hh => hi hh.symm)]

theorem runPayrollClaims_mono (a : PayrollAgreement) (calls : List (Nat × Address × Nat))
    (i : Nat) : employeeClaimed a i ≤ employeeClaimed (runPayrollClaims a calls) i := by
  induction calls generalizing a with
  | nil => exact le_refl _
  | cons c rest ih =>
    unfold runPayrollClaims
    rw [List.foldl_cons]
    exact le_trans (employeeClaimed_step_mono c a i) (ih _)

end StelloPay

namespace StelloPay

/-- Claim C3: after cancel_agreement on an escrow agreement, period accrual is
frozen at cancelled_at, and claim_time_based called at any time from the
cancellation up to cancelled_at + grace_period_seconds pays exactly the
periods earned before cancellation (amount_per_period × earnedBy at
cancelled_at, independent of the claim time), while any claim_time_based call
after that window fails with NotInGracePeriod. -/
theorem cancel_freezes_accrual_grace_window
    (a a' : EscrowAgreement) (cancelTime claimTime : Nat)
    (hact : a.status = AgreementStatus.Active)
    (hcancel : cancel_agreement cancelTime a = Except.ok a')
    (horder : cancelTime ≤ claimTime)
    (hwin : claimTime ≤ cancelTime + a.grace_period_seconds)
    (hearn : earnedBy a cancelTime ≠ 0)
    (hbal : ¬ a.escrow_balance < a.amount_per_period * (earnedBy a cancelTime : Int)) :
    claim_time_based claimTime a'
      = Except.ok (a.amount_per_period * (earnedBy a cancelTime : Int),
          { a' with claimed_periods := a.claimed_periods + earnedBy a cancelTime,
                    escrow_balance :=
                      a.escrow_balance
                        - a.amount_per_period * (earnedBy a cancelTime : Int) }) ∧
    (∀ lateTime, cancelTime + a.grace_period_seconds < lateTime →
       claim_time_based lateTime a' = Except.error PayrollError.NotInGracePeriod) := by
  unfold cancel_agreement at hcancel
  rw [if_pos (Or.inl hact)] at hcancel
  have ha' : a'
      = { a with status := AgreementStatus.Cancelled, cancelled_at := some cancelTime } :=
    (Except.ok.inj hcancel).symm
  have hsts : a'.status = AgreementStatus.Cancelled := by rw [ha']
  have hcas : a'.cancelled_at = some cancelTime := by rw [ha']
  have hgrs : a'.grace_period_seconds = a.grace_period_seconds := by rw [ha']
  have hearn' : earnedBy a' cancelTime = earnedBy a cancelTime := by rw [ha']; rfl
  have hbals : a'.escrow_balance = a.escrow_balance := by rw [ha']
  have happ : a'.amount_per_period = a.amount_per_period := by rw [ha']
  have hcps : a'.claimed_periods = a.claimed_periods := by rw [ha']
  constructor
  · unfold claim_time_based
    rw [hsts, hcas]
    dsimp only
    rw [hgrs, if_neg (Nat.not_lt.mpr hwin)]
    unfold claimCore
    rw [Nat.min_eq_right horder, hearn', hbals, happ, hcps,
        if_neg hearn, if_neg hbal]
    rw [hsts, hcas, hgrs]
  · intro lateTime hlate
    unfold claim_time_based
    rw [hsts, hcas]
    dsimp only
    rw [hgrs, if_pos hlate]

/-- Witness for C3: the escrow agreement of the test scenario (5 periods of
1000, period 86400 s, grace 604800 s), cancelled at time 172800 after 2
periods were earned, claimed at the cancellation time. -/
theorem cancel_freezes_accrual_grace_window_witness :
    claim_time_based 172800
        ⟨AgreementStatus.Cancelled, 0, some 172800, 604800, 1000, 86400, 5, 0, 5000⟩
      = Except.ok
          ((1000 : Int)
             * ((earnedBy ⟨AgreementStatus.Active, 0, none, 604800, 1000, 86400, 5, 0, 5000⟩
                   172800 : Nat) : Int),
           { (⟨AgreementStatus.Cancelled, 0, some 172800, 604800, 1000, 86400, 5, 0,
               5000⟩ : EscrowAgreement) with
             claimed_periods :=
               0 + earnedBy ⟨AgreementStatus.Active, 0, none, 604800, 1000, 86400, 5, 0, 5000⟩
                     172800,
             escrow_balance :=
               (5000 : Int)
                 - 1000
                   * ((earnedBy ⟨AgreementStatus.Active, 0, none, 604800, 1000, 86400, 5, 0,
                         5000⟩ 172800 : Nat) : Int) }) ∧
    (∀ lateTime, 172800 + 604800 < lateTime →
       claim_time_based lateTime
           ⟨AgreementStatus.Cancelled, 0, some 172800, 604800, 1000, 86400, 5, 0, 5000⟩
         = Except.error PayrollError.NotInGracePeriod) :=
  cancel_freezes_accrual_grace_window
    ⟨AgreementStatus.Active, 0, none, 604800, 1000, 86400, 5, 0, 5000⟩
    ⟨AgreementStatus.Cancelled, 0, some 172800, 604800, 1000, 86400, 5, 0, 5000⟩
    172800 172800 rfl rfl (by decide) (by decide) (by decide) (by decide)

/-- Claim C4: for every agreement, raise_dispute while a dispute is already
Raised fails with DisputeAlreadyRaised; resolve_dispute by any caller other
than the configured arbiter fails with NotArbiter; and after one successful
resolve_dispute the dispute status is Resolved (terminal) and any further
resolve_dispute attempt fails with NoDispute. -/
theorem dispute_workflow_guards
    (d d' : DisputeState) (caller arbiter : Address)
    (amtE amtC bal : Int) (now : Nat)
    (hr : d.status = DisputeStatus.Raised)
    (hcaller : caller ≠ arbiter)
    (hres : resolve_dispute arbiter arbiter amtE amtC bal d = Except.ok d') :
    raise_dispute now d = Except.error PayrollError.DisputeAlreadyRaised ∧
    (∀ d2 : DisputeState, resolve_dispute caller arbiter amtE amtC bal d2
      = Except.error PayrollError.NotArbiter) ∧
    d'.status = DisputeStatus.Resolved ∧
    (∀ amtE2 amtC2 bal2,
       resolve_dispute arbiter arbiter amtE2 amtC2 bal2 d'
         = Except.error PayrollError.NoDispute) := by
  have hd' : d' = { d with status := DisputeStatus.Resolved } := by
    unfold resolve_dispute at hres
    rw [if_neg (fun hc => hc rfl), if_neg (fun hc => hc hr)] at hres
    by_cases hb : bal < amtE + amtC
    · rw [if_pos hb] at hres; cases hres
    · rw [if_neg hb] at hres
      exact (Except.ok.inj hres).symm
  have hds : d'.status = DisputeStatus.Resolved := by rw [hd']
  refine ⟨?_, ?_, hds, ?_⟩
  · unfold raise_dispute
    rw [if_neg (by rw [hr]; decide)]
  · intro d2
    unfold resolve_dispute
    rw [if_pos hcaller]
  · intro amtE2 amtC2 bal2
    unfold resolve_dispute
    rw [if_neg (fun hc => hc rfl), if_pos (by rw [hds]; decide)]

/-- Witness for C4: a raised dispute, arbiter address 2, non-arbiter caller 1,
resolution amounts 500/500 against balance 1000. -/
theorem dispute_workflow_guards_witness :
    raise_dispute 9 ⟨DisputeStatus.Raised, 5⟩
      = Except.error PayrollError.DisputeAlreadyRaised ∧
    (∀ d2 : DisputeState, resolve_dispute 1 2 500 500 1000 d2
      = Except.error PayrollError.NotArbiter) ∧
    (⟨DisputeStatus.Resolved, 5⟩ : DisputeState).status = DisputeStatus.Resolved ∧
    (∀ amtE2 amtC2 bal2,
       resolve_dispute 2 2 amtE2 amtC2 bal2 ⟨DisputeStatus.Resolved, 5⟩
         = Except.error PayrollError.NoDispute) :=
  dispute_workflow_guards ⟨DisputeStatus.Raised, 5⟩ ⟨DisputeStatus.Resolved, 5⟩
    1 2 500 500 1000 9 rfl (by decide) rfl

/-- Claim C5: claimed_periods is monotone non-decreasing across any sequence
of claim calls (per employee for claim_payroll, for the contributor for
claim_time_based, with failed calls persisting no change), and a successful
claim commits the counter increment with the transfer so that an immediate
second claim at the same time recomputes elapsed as 0 and fails with
NoPeriodsToClaim — no double payment within or across calls. -/
theorem claimed_periods_monotone_no_double
    (pb : PayrollAgreement) (calls : List (Nat × Address × Nat))
    (eb : EscrowAgreement) (times : List Nat)
    (pa pa' : PayrollAgreement) (ea ea' : EscrowAgreement)
    (now t idx : Nat) (caller : Address) (pamt eamt : Int)
    (hp : claim_payroll now caller pa idx = Except.ok (pamt, pa'))
    (he : claim_time_based t ea = Except.ok (eamt, ea')) :
    (∀ i, employeeClaimed pb i ≤ employeeClaimed (runPayrollClaims pb calls) i) ∧
    eb.claimed_periods ≤ (runEscrowClaims eb times).claimed_periods ∧
    claim_payroll now caller pa' idx = Except.error PayrollError.NoPeriodsToClaim ∧
    claim_time_based t ea' = Except.error PayrollError.NoPeriodsToClaim :=
  ⟨fun i => runPayrollClaims_mono pb calls i, runEscrowClaims_mono eb times,
   claim_payroll_no_double hp, claim_time_based_no_double he⟩

/-- Witness for C5: a one-employee payroll agreement and a four-period escrow
agreement, each one period past activation, claimed successfully once. -/
theorem claimed_periods_monotone_no_double_witness :
    (∀ i, employeeClaimed ⟨AgreementStatus.Active, 0, 86400, 10000, [⟨7, 1000, 0⟩]⟩ i ≤
       employeeClaimed
         (runPayrollClaims ⟨AgreementStatus.Active, 0, 86400, 10000, [⟨7, 1000, 0⟩]⟩
           [(86401, 7, 0)]) i) ∧
    (⟨AgreementStatus.Active, 0, none, 604800, 1000, 86400, 4, 0, 4000⟩ :
        EscrowAgreement).claimed_periods ≤
      (runEscrowClaims ⟨AgreementStatus.Active, 0, none, 604800, 1000, 86400, 4, 0, 4000⟩
        [86400]).claimed_periods ∧
    claim_payroll 86401 7 ⟨AgreementStatus.Active, 0, 86400, 9000, [⟨7, 1000, 1⟩]⟩ 0
      = Except.error PayrollError.NoPeriodsToClaim ∧
    claim_time_based 86400
        ⟨AgreementStatus.Active, 0, none, 604800, 1000, 86400, 4, 1, 3000⟩
      = Except.error PayrollError.NoPeriodsToClaim :=
  claimed_periods_monotone_no_double
    ⟨AgreementStatus.Active, 0, 86400, 10000, [⟨7, 1000, 0⟩]⟩ [(86401, 7, 0)]
    ⟨AgreementStatus.Active, 0, none, 604800, 1000, 86400, 4, 0, 4000⟩ [86400]
    ⟨AgreementStatus.Active, 0, 86400, 10000, [⟨7, 1000, 0⟩]⟩
    ⟨AgreementStatus.Active, 0, 86400, 9000, [⟨7, 1000, 1⟩]⟩
    ⟨AgreementStatus.Active, 0, none, 604800, 1000, 86400, 4, 0, 4000⟩
    ⟨AgreementStatus.Active, 0, none, 604800, 1000, 86400, 4, 1, 3000⟩
    86401 86400 0 7 1000 1000 rfl rfl

/-- Claim C6: batch_claim_payroll checks status = Active once for the whole
call — when the agreement is not Active (for example still Created, before
activate_agreement) the entire call fails with InvalidData and no index is
processed, unlike the per-item partial success of the milestone batch. -/
theorem batch_claim_payroll_requires_active
    (now : Nat) (caller : Address) (a : PayrollAgreement) (indices : List Nat)
    (h : a.status ≠ AgreementStatus.Active) :
    batch_claim_payroll now caller a indices = Except.error PayrollError.InvalidData := by
  unfold batch_claim_payroll
  rw [if_pos h]

/-- Witness for C6: a Created two-employee payroll agreement batch-claimed
over indices [0, 1]. -/
theorem batch_claim_payroll_requires_active_witness :
    batch_claim_payroll 604800 3
        ⟨AgreementStatus.Created, 0, 86400, 2000, [⟨1, 1000, 0⟩, ⟨2, 1000, 0⟩]⟩ [0, 1]
      = Except.error PayrollError.InvalidData :=
  batch_claim_payroll_requires_active 604800 3
    ⟨AgreementStatus.Created, 0, 86400, 2000, [⟨1, 1000, 0⟩, ⟨2, 1000, 0⟩]⟩ [0, 1]
    (by decide)

end StelloPay

namespace StelloPay

theorem familyIds_cons_match (shared : Bool) (k : CreateKind) (id : Nat)
    (out : List (CreateKind × Nat)) (h : k.sharedCounter = shared) :
    familyIds shared ((k, id) :: out) = id :: familyIds shared out := by
  unfold familyIds
  simp [List.filter_cons, h]

theorem familyIds_cons_skip (shared : Bool) (k : CreateKind) (id : Nat)
    (out : List (CreateKind × Nat)) (h : k.sharedCounter ≠ shared) :
    familyIds shared ((k, id) :: out) = familyIds shared out := by
  unfold familyIds
  simp [List.filter_cons, h]

theorem runCreates_family_facts (ks : List CreateKind) (s : AgreementCounters) :
    (∀ id ∈ familyIds true (runCreates s ks).1, s.next_agreement_id < id) ∧
    (∀ id ∈ familyIds false (runCreates s ks).1, s.milestone_counter < id) ∧
    List.Chain' (· < ·) (familyIds true (runCreates s ks).1) ∧
    List.Chain' (· < ·) (familyIds false (runCreates s ks).1) := by
  induction ks generalizing s with
  | nil =>
    refine ⟨?_, ?_, ?_, ?_⟩ <;> simp [runCreates, familyIds]
  | cons k ks ih =>
    cases k with
    | payroll =>
      obtain ⟨ih1, ih2, ih3, ih4⟩ := ih { s with next_agreement_id := s.next_agreement_id + 1 }
      simp only [runCreates, createAgreement]
      rw [familyIds_cons_match true CreateKind.payroll _ _ rfl,
          familyIds_cons_skip false CreateKind.payroll _ _ (by decide)]
      refine ⟨?_, ih2, ?_, ih4⟩
      · intro id hid
        rcases List.mem_cons.mp hid with h1 | h2
        · omega
        · have h3 := ih1 id h2; dsimp only at h3; omega
      · rw [List.chain'_cons']
        exact ⟨fun y hy => ih1 y (List.mem_of_mem_head? hy), ih3⟩
    | escrow =>
      obtain ⟨ih1, ih2, ih3, ih4⟩ := ih { s with next_agreement_id := s.next_agreement_id + 1 }
      simp only [runCreates, createAgreement]
      rw [familyIds_cons_match true CreateKind.escrow _ _ rfl,
          familyIds_cons_skip false CreateKind.escrow _ _ (by decide)]
      refine ⟨?_, ih2, ?_, ih4⟩
      · intro id hid
        rcases List.mem_cons.mp hid with h1 | h2
        · omega
        · have h3 := ih1 id h2; dsimp only at h3; omega
      · rw [List.chain'_cons']
        exact ⟨fun y hy => ih1 y (List.mem_of_mem_head? hy), ih3⟩
    | milestone =>
      obtain ⟨ih1, ih2, ih3, ih4⟩ := ih { s with milestone_counter := s.milestone_counter + 1 }
      simp only [runCreates, createAgreement]
      rw [familyIds_cons_match false CreateKind.milestone _ _ rfl,
          familyIds_cons_skip true CreateKind.milestone _ _ (by decide)]
      refine ⟨ih1, ?_, ih3, ?_⟩
      · intro id hid
        rcases List.mem_cons.mp hid with h1 | h2
        · omega
        · have h3 := ih2 id h2; dsimp only at h3; omega
      · rw [List.chain'_cons']
        exact ⟨fun y hy => ih2 y (List.mem_of_mem_head? hy), ih4⟩

/-- Claim C7: agreement ids are strictly monotone under repeated creation
within each counter family: over any sequence of creation calls, the ids
returned by create_payroll_agreement / create_escrow_agreement form a
strictly increasing sequence drawn from the shared counter, the ids returned
by create_milestone_agreement form a strictly increasing sequence drawn from
the independent milestone counter, and neither kind of creation touches the
other family's counter. -/
theorem agreement_id_counters_monotone (s : AgreementCounters) (ks : List CreateKind) :
    List.Chain' (· < ·) (familyIds true (runCreates s ks).1) ∧
    List.Chain' (· < ·) (familyIds false (runCreates s ks).1) ∧
    (createAgreement s CreateKind.milestone).2.next_agreement_id = s.next_agreement_id ∧
    (createAgreement s CreateKind.payroll).2.milestone_counter = s.milestone_counter ∧
    (createAgreement s CreateKind.escrow).2.milestone_counter = s.milestone_counter :=
  ⟨(runCreates_family_facts ks s).2.2.1, (runCreates_family_facts ks s).2.2.2,
   rfl, rfl, rfl⟩

/-- Claim C8: operations on one agreement id leave the observable state of
every other agreement id — escrow record (counters, balances), milestone
record (flags, status) and dispute status — completely unchanged, for
milestone approval and claiming (single and batch), escrow claiming, and
dispute raising and resolution. -/
theorem agreement_operations_isolated
    (s : GlobalState) (aid b mid now : Nat) (ids : List Nat)
    (caller arbiter : Address) (amtE amtC : Int) (hne : b ≠ aid) :
    observeAgreement (gApproveMilestone s aid mid) b = observeAgreement s b ∧
    observeAgreement (gClaimMilestone s aid mid) b = observeAgreement s b ∧
    observeAgreement (gBatchClaimMilestones s aid ids) b = observeAgreement s b ∧
    observeAgreement (gClaimTimeBased s now aid) b = observeAgreement s b ∧
    observeAgreement (gRaiseDispute s now aid) b = observeAgreement s b ∧
    observeAgreement (gResolveDispute s caller arbiter aid amtE amtC) b
      = observeAgreement s b := by
  refine ⟨?_, ?_, ?_, ?_, ?_, ?_⟩
  · unfold gApproveMilestone observeAgreement
    split
    · rfl
    · split
      · simp [Function.update_noteq hne]
      · rfl
  · unfold gClaimMilestone observeAgreement
    split
    · rfl
    · split
      · simp [Function.update_noteq hne]
      · rfl
  · unfold gBatchClaimMilestones observeAgreement
    split
    · rfl
    · simp [Function.update_noteq hne]
  · unfold gClaimTimeBased observeAgreement
    split
    · rfl
    · split
      · simp [Function.update_noteq hne]
      · rfl
  · unfold gRaiseDispute observeAgreement
    split
    · simp [Function.update_noteq hne]
    · rfl
  · unfold gResolveDispute observeAgreement
    split
    · rfl
    · split
      · simp [Function.update_noteq hne]
      · rfl

/-- Witness for C8: a store holding a milestone agreement and an escrow
agreement under id 1, observed at id 2 around each operation. -/
theorem agreement_operations_isolated_witness :
    observeAgreement
        (gApproveMilestone
          ⟨fun _ => some ⟨AgreementStatus.Active, 0, none, 604800, 1000, 86400, 4, 0, 4000⟩,
           fun _ => some ⟨AgreementStatus.Active, [⟨1000, true, false⟩]⟩,
           fun _ => ⟨DisputeStatus.NoDispute, 0⟩⟩ 1 1) 2
      = observeAgreement
          ⟨fun _ => some ⟨AgreementStatus.Active, 0, none, 604800, 1000, 86400, 4, 0, 4000⟩,
           fun _ => some ⟨AgreementStatus.Active, [⟨1000, true, false⟩]⟩,
           fun _ => ⟨DisputeStatus.NoDispute, 0⟩⟩ 2 ∧
    observeAgreement
        (gClaimMilestone
          ⟨fun _ => some ⟨AgreementStatus.Active, 0, none, 604800, 1000, 86400, 4, 0, 4000⟩,
           fun _ => some ⟨AgreementStatus.Active, [⟨1000, true, false⟩]⟩,
           fun _ => ⟨DisputeStatus.NoDispute, 0⟩⟩ 1 1) 2
      = observeAgreement
          ⟨fun _ => some ⟨AgreementStatus.Active, 0, none, 604800, 1000, 86400, 4, 0, 4000⟩,
           fun _ => some ⟨AgreementStatus.Active, [⟨1000, true, false⟩]⟩,
           fun _ => ⟨DisputeStatus.NoDispute, 0⟩⟩ 2 ∧
    observeAgreement
        (gBatchClaimMilestones
          ⟨fun _ => some ⟨AgreementStatus.Active, 0, none, 604800, 1000, 86400, 4, 0, 4000⟩,
           fun _ => some ⟨AgreementStatus.Active, [⟨1000, true, false⟩]⟩,
           fun _ => ⟨DisputeStatus.NoDispute, 0⟩⟩ 1 [1]) 2
      = observeAgreement
          ⟨fun _ => some ⟨AgreementStatus.Active, 0, none, 604800, 1000, 86400, 4, 0, 4000⟩,
           fun _ => some ⟨AgreementStatus.Active, [⟨1000, true, false⟩]⟩,
           fun _ => ⟨DisputeStatus.NoDispute, 0⟩⟩ 2 ∧
    observeAgreement
        (gClaimTimeBased
          ⟨fun _ => some ⟨AgreementStatus.Active, 0, none, 604800, 1000, 86400, 4, 0, 4000⟩,
           fun _ => some ⟨AgreementStatus.Active, [⟨1000, true, false⟩]⟩,
           fun _ => ⟨DisputeStatus.NoDispute, 0⟩⟩ 86400 1) 2
      = observeAgreement
          ⟨fun _ => some ⟨AgreementStatus.Active, 0, none, 604800, 1000, 86400, 4, 0, 4000⟩,
           fun _ => some ⟨AgreementStatus.Active, [⟨1000, true, false⟩]⟩,
           fun _ => ⟨DisputeStatus.NoDispute, 0⟩⟩ 2 ∧
    observeAgreement
        (gRaiseDispute
          ⟨fun _ => some ⟨AgreementStatus.Active, 0, none, 604800, 1000, 86400, 4, 0, 4000⟩,
           fun _ => some ⟨AgreementStatus.Active, [⟨1000, true, false⟩]⟩,
           fun _ => ⟨DisputeStatus.NoDispute, 0⟩⟩ 7 1) 2
      = observeAgreement
          ⟨fun _ => some ⟨AgreementStatus.Active, 0, none, 604800, 1000, 86400, 4, 0, 4000⟩,
           fun _ => some ⟨AgreementStatus.Active, [⟨1000, true, false⟩]⟩,
           fun _ => ⟨DisputeStatus.NoDispute, 0⟩⟩ 2 ∧
    observeAgreement
        (gResolveDispute
          ⟨fun _ => some ⟨AgreementStatus.Active, 0, none, 604800, 1000, 86400, 4, 0, 4000⟩,
           fun _ => some ⟨AgreementStatus.Active, [⟨1000, true, false⟩]⟩,
           fun _ => ⟨DisputeStatus.NoDispute, 0⟩⟩ 2 2 1 500 500) 2
      = observeAgreement
          ⟨fun _ => some ⟨AgreementStatus.Active, 0, none, 604800, 1000, 86400, 4, 0, 4000⟩,
           fun _ => some ⟨AgreementStatus.Active, [⟨1000, true, false⟩]⟩,
           fun _ => ⟨DisputeStatus.NoDispute, 0⟩⟩ 2 :=
  agreement_operations_isolated
    ⟨fun _ => some ⟨AgreementStatus.Active, 0, none, 604800, 1000, 86400, 4, 0, 4000⟩,
     fun _ => some ⟨AgreementStatus.Active, [⟨1000, true, false⟩]⟩,
     fun _ => ⟨DisputeStatus.NoDispute, 0⟩⟩ 1 2 1 86400 [1] 2 2 500 500 (by decide)

end StelloPay

namespace Splitter

theorem addBps_none (r : RecipientShare) : addBps none r = none := by
  unfold addBps
  cases r.kind <;> rfl

theorem foldl_addBps_none (rs : List RecipientShare) : rs.foldl addBps none = none := by
  induction rs with
  | nil => rfl
  | cons r rest ih =>
    rw [List.foldl_cons, addBps_none]
    exact ih

theorem addBps_some_percent (t0 b : Nat) (r : RecipientShare)
    (hk : r.kind = ShareKind.Percent b) :
    addBps (some t0) r = if t0 + b < U32_LIMIT then some (t0 + b) else none := by
  unfold addBps
  rw [hk]

theorem addBps_some_fixed (t0 : Nat) (x : Int) (r : RecipientShare)
    (hk : r.kind = ShareKind.Fixed x) : addBps (some t0) r = some t0 := by
  unfold addBps
  rw [hk]

theorem foldl_addBps_some (rs : List RecipientShare) (t0 t : Nat)
    (h : rs.foldl addBps (some t0) = some t) :
    t = t0 + (rs.map percentBps).sum := by
  induction rs generalizing t0 with
  | nil =>
    simp only [List.foldl_nil, Option.some.injEq] at h
    simp [← h]
  | cons r rest ih =>
    rw [List.foldl_cons] at h
    cases hk : r.kind with
    | Percent b =>
      rw [addBps_some_percent t0 b r hk] at h
      by_cases hov : t0 + b < U32_LIMIT
      · rw [if_pos hov] at h
        have h2 := ih (t0 + b) h
        simp only [List.map_cons, List.sum_cons, percentBps, hk]
        omega
      · rw [if_neg hov] at h
        rw [foldl_addBps_none] at h
        cases h
    | Fixed x =>
      rw [addBps_some_fixed t0 x r hk] at h
      have h2 := ih t0 h
      simp only [List.map_cons, List.sum_cons, percentBps, hk]
      omega

theorem hasPercent_of_allPercent {rs : List RecipientShare} (h : allPercent rs = true)
    (hne : rs.isEmpty = false) : hasPercent rs = true := by
  cases rs with
  | nil => cases hne
  | cons r rest =>
    unfold allPercent at h
    rw [List.all_cons, Bool.and_eq_true] at h
    unfold hasPercent
    rw [List.any_cons, Bool.or_eq_true]
    exact Or.inl h.1

theorem compute_split_amounts (rs : List RecipientShare) (T : Int)
    (hall : allPercent rs = true) (hT : 0 ≤ T) :
    (compute_split rs T).map Prod.snd
      = rs.map (fun r => ((percentBps r : Nat) : Int) * T / 10000) := by
  induction rs with
  | nil => rfl
  | cons r rest ih =>
    unfold allPercent at hall
    rw [List.all_cons, Bool.and_eq_true] at hall
    unfold compute_split at ih ⊢
    rw [List.map_cons, List.map_cons, List.map_cons]
    congr 1
    · cases hk : r.kind with
      | Percent b =>
        dsimp only
        unfold shareAmount percentBps
        rw [hk]
        exact Int.tdiv_eq_ediv (mul_nonneg (Int.natCast_nonneg b) hT) (by norm_num)
      | Fixed x =>
        rw [hk] at hall
        exact absurd hall.1 (by simp)
    · exact ih hall.2

theorem sum_div_mul_le (xs : List Int) :
    ((xs.map (fun x => x / 10000)).sum) * 10000 ≤ xs.sum := by
  induction xs with
  | nil => simp
  | cons x rest ih =>
    simp only [List.map_cons, List.sum_cons, add_mul]
    exact add_le_add (Int.ediv_mul_le x (by norm_num)) ih

theorem sum_map_percent_mul (rs : List RecipientShare) (T : Int) :
    (rs.map (fun r => ((percentBps r : Nat) : Int) * T)).sum
      = (((rs.map percentBps).sum : Nat) : Int) * T := by
  induction rs with
  | nil => simp
  | cons r rest ih =>
    simp only [List.map_cons, List.sum_cons, ih]
    push_cast
    ring

/-- Claim C9: for every stored split definition whose shares are all Percent
(which create_split accepted, enforcing that their basis points sum to exactly
10000) and every total_amount ≥ 0, compute_split assigns each recipient
floor(bps × total_amount / 10000) and the sum of all assigned amounts is at
most total_amount — integer truncation may leave an undistributed remainder,
but the computed split never exceeds the total. -/
theorem compute_split_percent_conservative
    (rs stored : List RecipientShare) (total_amount : Int)
    (hcreate : create_split rs = some stored)
    (hall : allPercent rs = true)
    (hT : 0 ≤ total_amount) :
    stored = rs ∧
    (rs.map percentBps).sum = 10000 ∧
    ((compute_split rs total_amount).map Prod.snd
       = rs.map (fun r => ((percentBps r : Nat) : Int) * total_amount / 10000)) ∧
    ((compute_split rs total_amount).map Prod.snd).sum ≤ total_amount := by
  unfold create_split at hcreate
  by_cases hemp : rs.isEmpty
  · rw [if_pos hemp] at hcreate; cases hcreate
  rw [if_neg hemp] at hcreate
  cases hfold : rs.foldl addBps (some 0) with
  | none => rw [hfold] at hcreate; cases hcreate
  | some total =>
    rw [hfold] at hcreate
    dsimp only at hcreate
    rw [if_pos (hasPercent_of_allPercent hall (Bool.eq_false_iff.mpr hemp))] at hcreate
    by_cases h10 : total = 10000
    · rw [if_pos h10] at hcreate
      have hstored : stored = rs := (Option.some.inj hcreate).symm
      have htot := foldl_addBps_some rs 0 total hfold
      have hsum : (rs.map percentBps).sum = 10000 := by omega
      have hamounts := compute_split_amounts rs total_amount hall hT
      refine ⟨hstored, hsum, hamounts, ?_⟩
      rw [hamounts]
      have h1 := sum_div_mul_le (rs.map (fun r => ((percentBps r : Nat) : Int) * total_amount))
      rw [List.map_map] at h1
      have h2 := sum_map_percent_mul rs total_amount
      rw [hsum] at h2
      have h3 : ((rs.map (fun r => ((percentBps r : Nat) : Int) * total_amount / 10000)).sum)
          * 10000 ≤ ((10000 : Nat) : Int) * total_amount := by
        calc ((rs.map (fun r => ((percentBps r : Nat) : Int) * total_amount / 10000)).sum)
              * 10000
            ≤ (rs.map (fun r => ((percentBps r : Nat) : Int) * total_amount)).sum := by
              simpa [Function.comp] using h1
          _ = ((10000 : Nat) : Int) * total_amount := h2
      have h4 : ((10000 : Nat) : Int) = (10000 : Int) := by norm_num
      rw [h4] at h3
      linarith
    · rw [if_neg h10] at hcreate; cases hcreate

/-- Witness for C9: a 60/40 percent split of 1001 token units; the floor
amounts 600 and 400 sum to 1000 ≤ 1001. -/
theorem compute_split_percent_conservative_witness :
    ([⟨1, ShareKind.Percent 6000⟩, ⟨2, ShareKind.Percent 4000⟩] :
        List RecipientShare)
      = [⟨1, ShareKind.Percent 6000⟩, ⟨2, ShareKind.Percent 4000⟩] ∧
    (([⟨1, ShareKind.Percent 6000⟩, ⟨2, ShareKind.Percent 4000⟩] :
        List RecipientShare).map percentBps).sum = 10000 ∧
    ((compute_split [⟨1, ShareKind.Percent 6000⟩, ⟨2, ShareKind.Percent 4000⟩]
        1001).map Prod.snd
       = ([⟨1, ShareKind.Percent 6000⟩, ⟨2, ShareKind.Percent 4000⟩] :
           List RecipientShare).map
           (fun r => ((percentBps r : Nat) : Int) * 1001 / 10000)) ∧
    ((compute_split [⟨1, ShareKind.Percent 6000⟩, ⟨2, ShareKind.Percent 4000⟩]
        1001).map Prod.snd).sum ≤ 1001 :=
  compute_split_percent_conservative
    [⟨1, ShareKind.Percent 6000⟩, ⟨2, ShareKind.Percent 4000⟩]
    [⟨1, ShareKind.Percent 6000⟩, ⟨2, ShareKind.Percent 4000⟩]
    1001 rfl rfl (by decide)

end Splitter

namespace Multisig

theorem perform_execute_approvals (s : MultisigState) (oid : Nat) :
    (perform_execute s oid).approvals = s.approvals := by
  unfold perform_execute
  split
  · split
    · rfl
    · rfl
  · rfl

theorem execute_if_threshold_met_approvals (s : MultisigState) (oid : Nat) :
    (execute_if_threshold_met s oid).approvals = s.approvals := by
  unfold execute_if_threshold_met
  split
  · exact perform_execute_approvals s oid
  · rfl

theorem has_approved_iff (s : MultisigState) (oid signer : Nat) :
    has_approved s oid signer = true ↔ signer ∈ s.approvals oid := by
  unfold has_approved
  exact List.elem_iff

theorem is_signer_iff (s : MultisigState) (x : Nat) :
    is_signer s x = true ↔ x ∈ s.signers := by
  unfold is_signer
  exact List.elem_iff

theorem approve_operation_noop (s : MultisigState) (signer oid : Nat) (op : Operation)
    (hsig : is_signer s signer = true) (hop : s.ops oid = some op)
    (hpend : op.status = OperationStatus.Pending)
    (hhas : has_approved s oid signer = true) :
    approve_operation s signer oid = some s := by
  unfold approve_operation
  rw [if_neg (by simp [hsig])]
  rw [hop]
  dsimp only
  rw [if_neg (by simp [hpend]), if_pos hhas]

theorem approve_operation_approvals (s s' : MultisigState) (signer oid : Nat)
    (happrove : approve_operation s signer oid = some s') :
    s'.approvals = s.approvals ∨
    (has_approved s oid signer = false ∧
     s'.approvals = Function.update s.approvals oid (s.approvals oid ++ [signer])) := by
  unfold approve_operation at happrove
  by_cases hsig : is_signer s signer
  case neg => rw [if_pos (by simpa using hsig)] at happrove; cases happrove
  rw [if_neg (by simpa using hsig)] at happrove
  cases hop : s.ops oid with
  | none => rw [hop] at happrove; cases happrove
  | some op =>
    rw [hop] at happrove
    dsimp only at happrove
    by_cases hpend : op.status ≠ OperationStatus.Pending
    · rw [if_pos hpend] at happrove; cases happrove
    rw [if_neg hpend] at happrove
    by_cases hhas : has_approved s oid signer = true
    · rw [if_pos hhas] at happrove
      left
      rw [← Option.some.inj happrove]
    · rw [if_neg hhas] at happrove
      right
      refine ⟨Bool.eq_false_iff.mpr hhas, ?_⟩
      rw [← Option.some.inj happrove]
      rw [execute_if_threshold_met_approvals]

theorem nodup_length_le {l sgn : List Nat} (hnd : l.Nodup)
    (hsub : ∀ x ∈ l, x ∈ sgn) : l.length ≤ sgn.length := by
  calc l.length = l.toFinset.card := (List.toFinset_card_of_nodup hnd).symm
    _ ≤ sgn.toFinset.card := by
        apply Finset.card_le_card
        intro x hx
        rw [List.mem_toFinset] at hx ⊢
        exact hsub x hx
    _ ≤ sgn.length := List.toFinset_card_le sgn

/-- Claim C10: the approvals list of every multisig operation never contains
the same signer twice: approve_operation leaves every approval list
duplicate-free and inside the signer set; it returns without any state change
when the signer has already approved, so repeated approvals by one signer are
the identity on the state and never increase the approval count; each
approval count is bounded by the number of configured signers; and with
threshold > 1 a single signer approving repeatedly any number of times leaves
the operation Pending (never Executed). -/
theorem multisig_no_duplicate_approvals
    (s : MultisigState) (signer oid : Nat) (op : Operation)
    (hnodup : ∀ o, (s.approvals o).Nodup)
    (hsub : ∀ o, ∀ x ∈ s.approvals o, x ∈ s.signers)
    (hop : s.ops oid = some op)
    (hpend : op.status = OperationStatus.Pending)
    (hsig : is_signer s signer = true) :
    (∀ s', approve_operation s signer oid = some s' →
       (∀ o, (s'.approvals o).Nodup) ∧ ∀ o, ∀ x ∈ s'.approvals o, x ∈ s.signers) ∧
    (has_approved s oid signer = true → approve_operation s signer oid = some s) ∧
    approval_count s oid ≤ s.signers.length ∧
    (1 < s.threshold → s.approvals oid = [signer] →
       ∀ n, (approveStep signer oid)^[n] s = s ∧
         ((approveStep signer oid)^[n] s).ops oid = some op ∧
         op.status ≠ OperationStatus.Executed) := by
  refine ⟨?_, approve_operation_noop s signer oid op hsig hop hpend, ?_, ?_⟩
  · intro s' happrove
    rcases approve_operation_approvals s s' signer oid happrove with heq | ⟨hhas, hupd⟩
    · rw [heq]
      exact ⟨hnodup, hsub⟩
    · constructor
      · intro o
        rw [hupd]
        by_cases ho : o = oid
        · subst ho
          rw [Function.update_same]
          rw [← List.concat_eq_append]
          exact List.Nodup.concat
            (fun hmem => by
              rw [← has_approved_iff] at hmem
              rw [hmem] at hhas
              cases hhas)
            (hnodup o)
        · rw [Function.update_noteq ho]
          exact hnodup o
      · intro o x hx
        rw [hupd] at hx
        by_cases ho : o = oid
        · subst ho
          rw [Function.update_same] at hx
          rcases List.mem_append.mp hx with h1 | h2
          · exact hsub o x h1
          · rw [List.mem_singleton] at h2
            subst h2
            exact (is_signer_iff s x).mp hsig
        · rw [Function.update_noteq ho] at hx
          exact hsub o x hx
  · exact nodup_length_le (hnodup oid) (hsub oid)
  · intro hthr happ n
    have hhas : has_approved s oid signer = true := by
      rw [has_approved_iff, happ]
      exact List.mem_singleton_self signer
    have hstep : approveStep signer oid s = s := by
      unfold approveStep
      rw [approve_operation_noop s signer oid op hsig hop hpend hhas]
      rfl
    have hiter : (approveStep signer oid)^[n] s = s := Function.iterate_fixed hstep n
    refine ⟨hiter, by rw [hiter]; exact hop, by rw [hpend]; decide⟩

/-- Witness for C10: a two-signer wallet (signers 1 and 2, threshold 2) with
one Pending operation already approved by signer 1. -/
theorem multisig_no_duplicate_approvals_witness :
    (∀ s', approve_operation
        ⟨[1, 2], 2, 5, fun _ => some ⟨1, 1, OperationStatus.Pending⟩, fun _ => [1]⟩
        1 1 = some s' →
       (∀ o, (s'.approvals o).Nodup) ∧
         ∀ o, ∀ x ∈ s'.approvals o,
           x ∈ (⟨[1, 2], 2, 5, fun _ => some ⟨1, 1, OperationStatus.Pending⟩,
                 fun _ => [1]⟩ : MultisigState).signers) ∧
    (has_approved
        ⟨[1, 2], 2, 5, fun _ => some ⟨1, 1, OperationStatus.Pending⟩, fun _ => [1]⟩
        1 1 = true →
      approve_operation
          ⟨[1, 2], 2, 5, fun _ => some ⟨1, 1, OperationStatus.Pending⟩, fun _ => [1]⟩
          1 1
        = some ⟨[1, 2], 2, 5, fun _ => some ⟨1, 1, OperationStatus.Pending⟩,
                fun _ => [1]⟩) ∧
    approval_count
        ⟨[1, 2], 2, 5, fun _ => some ⟨1, 1, OperationStatus.Pending⟩, fun _ => [1]⟩ 1
      ≤ (⟨[1, 2], 2, 5, fun _ => some ⟨1, 1, OperationStatus.Pending⟩,
          fun _ => [1]⟩ : MultisigState).signers.length ∧
    (1 < (⟨[1, 2], 2, 5, fun _ => some ⟨1, 1, OperationStatus.Pending⟩,
          fun _ => [1]⟩ : MultisigState).threshold →
     (⟨[1, 2], 2, 5, fun _ => some ⟨1, 1, OperationStatus.Pending⟩,
       fun _ => [1]⟩ : MultisigState).approvals 1 = [1] →
       ∀ n, (approveStep 1 1)^[n]
           ⟨[1, 2], 2, 5, fun _ => some ⟨1, 1, OperationStatus.Pending⟩, fun _ => [1]⟩
         = ⟨[1, 2], 2, 5, fun _ => some ⟨1, 1, OperationStatus.Pending⟩,
            fun _ => [1]⟩ ∧
         ((approveStep 1 1)^[n]
             ⟨[1, 2], 2, 5, fun _ => some ⟨1, 1, OperationStatus.Pending⟩,
              fun _ => [1]⟩).ops 1
           = some ⟨1, 1, OperationStatus.Pending⟩ ∧
         (⟨1, 1, OperationStatus.Pending⟩ : Operation).status
           ≠ OperationStatus.Executed) :=
  multisig_no_duplicate_approvals
    ⟨[1, 2], 2, 5, fun _ => some ⟨1, 1, OperationStatus.Pending⟩, fun _ => [1]⟩
    1 1 ⟨1, 1, OperationStatus.Pending⟩
    (fun _ => List.nodup_singleton 1)
    (fun o x hx => by simp only [List.mem_singleton] at hx; subst hx; decide)
    rfl rfl rfl

end Multisig
